import Mathlib

/-!
Verification of the manual cross-validated hyperparameter search over the
similarity-based table-lookup classifier found in the Titanic notebook
(`Section 4/RidgeRegression.ipynb`).

The embedding below follows the notebook code:
* `Record` models one row of the Titanic training table (the columns the
  predictor reads: `Pclass`, `Sex`, `Siblings/Spouses Aboard`,
  `Parents/Children Aboard`, `Age`, `Survived`).  Categorical columns are
  coded as naturals, `Age` as a rational.
* `argmaxCount` models the composite `series.value_counts().argmax()`:
  it returns a label of maximal multiplicity; among labels of equal
  maximal multiplicity the one occurring first is kept (a deterministic
  representative of the library's tie behaviour).
* `table_lookup_predictor` / `table_lookup_predictor_2` are the two
  notebook predictors; the second adds the age-cutoff hyperparameter.
* `make_folds` / `evaluate` model the `KFold(n_splits=k)` splitting and the
  double loop filling the `performance` dictionary.
-/

structure Record where
  pclass : ℕ
  sex : ℕ
  sibsp : ℕ
  parch : ℕ
  age : ℚ
  survived : ℕ
deriving DecidableEq, Repr

/-- The boolean row mask of `table_lookup_predictor_2`: a table row `y` is kept
for query `x` when the four categorical/count columns coincide and the two
rows fall on the same side of the age cutoff. -/
def matchesFilter (cutoff : ℚ) (x y : Record) : Bool :=
  decide (y.pclass = x.pclass) && decide (y.sex = x.sex) &&
  decide (y.sibsp = x.sibsp) && decide (y.parch = x.parch) &&
  (decide (y.age < cutoff) == decide (x.age < cutoff))

/-- The boolean row mask of `table_lookup_predictor` (no age column). -/
def matchesFilterNoAge (x y : Record) : Bool :=
  decide (y.pclass = x.pclass) && decide (y.sex = x.sex) &&
  decide (y.sibsp = x.sibsp) && decide (y.parch = x.parch)

/-- One comparison step of `argmaxCount`: keep the current best label `b`
unless `l` occurs strictly more often in `ls`. -/
def betterLabel (ls : List ℕ) (b l : ℕ) : ℕ :=
  if ls.count l > ls.count b then l else b

/-- Models `series.value_counts().argmax()` on the list of labels `ls`:
the label of maximal multiplicity (first occurrence wins ties).
Pandas' `idxmax` on an empty series is an error; on `[]` we return the
junk value `0` (callers establish nonemptiness). -/
def argmaxCount (ls : List ℕ) : ℕ :=
  match ls with
  | [] => 0
  | h :: t => t.foldl (betterLabel (h :: t)) h

/-- `table_lookup_predictor x table`: filter `table` to the rows agreeing with
`x` on the four categorical/count columns; return the most common `Survived`
value among them, or the most common `Survived` value of the whole table if no
row matches. -/
def table_lookup_predictor (x : Record) (table : List Record) : ℕ :=
  let dflt := argmaxCount (table.map Record.survived)
  let similar_tab := (table.filter (matchesFilterNoAge x)).map Record.survived
  if similar_tab.length = 0 then dflt else argmaxCount similar_tab

/-- `table_lookup_predictor_2 x table age`: as `table_lookup_predictor`, with
the additional requirement that the row and the query fall on the same side of
the age cutoff `age`. -/
def table_lookup_predictor_2 (x : Record) (table : List Record) (age : ℚ) : ℕ :=
  let dflt := argmaxCount (table.map Record.survived)
  let similar_tab := (table.filter (matchesFilter age x)).map Record.survived
  if similar_tab.length = 0 then dflt else argmaxCount similar_tab

/-- Error taxonomy of the evaluator (spec §7). -/
inductive CVError where
  | InvalidArgument
  | InsufficientData
deriving DecidableEq, Repr

/-- Size of fold `i` out of `k` folds over `n` records: the first `n % k`
folds receive one extra record. -/
def foldSize (n k i : ℕ) : ℕ :=
  n / k + if i < n % k then 1 else 0

/-- Start offset of fold `i`: total size of the preceding folds. -/
def foldStart (n k i : ℕ) : ℕ :=
  i * (n / k) + min i (n % k)

/-- The held-out index block of fold `i`: a contiguous run of indices. -/
def testIndices (n k i : ℕ) : List ℕ :=
  List.range' (foldStart n k i) (foldSize n k i)

/-- The training indices of fold `i`: all indices of `0..n-1` outside the
held-out block, in increasing order. -/
def trainIndices (n k i : ℕ) : List ℕ :=
  (List.range n).filter (fun j => decide (j ∉ testIndices n k i))

/-- Modelled from the spec: the source delegates fold construction to the
external library's `KFold(n_splits=k)` (no shuffling), whose splitting is not
part of this repository.  Following spec §4.2, `make_folds n k` returns the
`k` contiguous, nearly equal held-out index blocks over `0..n-1`, and fails
with `InvalidArgument` when `k < 2` or `k > n`. -/
def make_folds (n k : ℕ) : Except CVError (List (List ℕ)) :=
  if 2 ≤ k ∧ k ≤ n then .ok ((List.range k).map (testIndices n k))
  else .error .InvalidArgument

/-- Row selection `dataset.iloc[idxs, :]`: the records of `dataset` at the
given positions (out-of-range positions contribute nothing). -/
def selectRows (dataset : List Record) (idxs : List ℕ) : List Record :=
  idxs.filterMap (fun j => dataset[j]?)

/-- Models `accuracy_score(y_true=actual, y_pred=predicted)` for the
predictions of `table_lookup_predictor_2` on the held-out rows: the fraction
of held-out records whose predicted label equals their true label. -/
def accuracy_score (trainR testR : List Record) (age : ℚ) : ℚ :=
  ((testR.countP
      (fun r => decide (table_lookup_predictor_2 r trainR age = r.survived)) : ℕ) : ℚ)
    / (testR.length : ℚ)

/-- The per-fold score of one candidate: train on the complement of the
held-out block `test`, score on the rows of `test`. -/
def scoreOn (dataset : List Record) (test : List ℕ) (age : ℚ) : ℚ :=
  accuracy_score
    (selectRows dataset
      ((List.range dataset.length).filter (fun j => decide (j ∉ test))))
    (selectRows dataset test) age

/-- Modelled from the spec for the error taxonomy (the source notebook lets
the external splitter raise); the loop body follows the notebook cell:
for each candidate age, for each `(train, test)` split, append
`accuracy_score` of the held-out fold to the candidate's score list
(`performance[age] = cv_perf`).  Fails with `InsufficientData` when the
dataset has fewer than `k` records. -/
def evaluate (dataset : List Record) (candidates : List ℚ) (k : ℕ) :
    Except CVError (List (ℚ × List ℚ)) :=
  if dataset.length < k then .error .InsufficientData
  else
    match make_folds dataset.length k with
    | .error e => .error e
    | .ok folds =>
        .ok (candidates.map (fun age => (age, folds.map (fun t => scoreOn dataset t age))))

/-- The fold-outer/candidate-inner evaluation order of spec §4.3: compute each
fold's scores for every candidate first, then read off the per-candidate score
rows. -/
def evaluateFoldOuter (dataset : List Record) (candidates : List ℚ) (k : ℕ) :
    Except CVError (List (ℚ × List ℚ)) :=
  if dataset.length < k then .error .InsufficientData
  else
    match make_folds dataset.length k with
    | .error e => .error e
    | .ok folds =>
        let perFold := folds.map (fun t => candidates.map (fun age => scoreOn dataset t age))
        .ok ((List.range candidates.length).map
          (fun ci => (candidates.getD ci 0, perFold.map (fun row => row.getD ci 0))))

/-- The held-out block of fold `i` when the splitter is given an explicit
shuffling permutation: with `shuffle = true` the block is read off the
permuted index order, with `shuffle = false` (the notebook's
`KFold(n_splits=10)`) the natural order is used. -/
def kfold_test_indices (shuffle : Bool) (perm : List ℕ) (n k i : ℕ) : List ℕ :=
  let order := if shuffle then perm else List.range n
  (List.range' (foldStart n k i) (foldSize n k i)).filterMap (fun j => order[j]?)

/-- `evaluate` with the fold splitter's shuffling machinery made explicit:
`perm` is the (potentially random) index permutation the splitter would use
when shuffling is enabled. -/
def evaluateR (shuffle : Bool) (perm : List ℕ) (dataset : List Record)
    (candidates : List ℚ) (k : ℕ) : Except CVError (List (ℚ × List ℚ)) :=
  if dataset.length < k then .error .InsufficientData
  else if 2 ≤ k ∧ k ≤ dataset.length then
    .ok (candidates.map (fun age =>
      (age, (List.range k).map
        (fun i => scoreOn dataset (kfold_test_indices shuffle perm dataset.length k i) age))))
  else .error .InvalidArgument

/-- Sample row: first-class young passenger who survived. -/
def sampleA : Record := ⟨1, 0, 0, 0, 5, 1⟩

/-- Sample row: first-class elderly passenger who did not survive. -/
def sampleB : Record := ⟨1, 0, 0, 0, 70, 0⟩

/-- Sample query row matching neither `sampleA` nor `sampleB` on `Pclass`. -/
def sampleQ : Record := ⟨2, 1, 1, 1, 40, 0⟩

/-- Sample query row on the young side of cutoff 30, matching `sampleA` and
`sampleB` on the categorical/count columns. -/
def sampleC : Record := ⟨1, 0, 0, 0, 6, 0⟩

/-- A concrete four-record dataset used to instantiate the evaluator. -/
def sampleDataset : List Record := [sampleA, sampleB, sampleC, sampleQ]

/-! ## Arithmetic facts about the fold layout -/

theorem foldStart_add_size (n k i : ℕ) :
    foldStart n k i + foldSize n k i = foldStart n k (i + 1) := by
  unfold foldStart foldSize
  by_cases h : i < n % k <;> simp [h, Nat.succ_mul] <;> omega

theorem foldStart_mono (n k : ℕ) {i j : ℕ} (h : i ≤ j) :
    foldStart n k i ≤ foldStart n k j := by
  unfold foldStart
  have h1 : i * (n / k) ≤ j * (n / k) := Nat.mul_le_mul_right _ h
  have h2 : min i (n % k) ≤ min j (n % k) := by omega
  omega

theorem foldStart_last (n k : ℕ) (hk : 0 < k) : foldStart n k k = n := by
  unfold foldStart
  have h1 : n % k < k := Nat.mod_lt _ hk
  have h2 : min k (n % k) = n % k := by omega
  have h3 : k * (n / k) + n % k = n := Nat.div_add_mod n k
  omega

theorem foldEnd_le (n k i : ℕ) (hk : 0 < k) (hi : i < k) :
    foldStart n k i + foldSize n k i ≤ n := by
  rw [foldStart_add_size]
  calc foldStart n k (i + 1) ≤ foldStart n k k := foldStart_mono n k hi
    _ = n := foldStart_last n k hk

theorem mem_testIndices_lt (n k i j : ℕ) (hk : 0 < k) (hi : i < k)
    (hj : j ∈ testIndices n k i) : j < n := by
  have hb := List.mem_range'_1.mp hj
  have := foldEnd_le n k i hk hi
  omega

/-! ## C10: the similarity relation is reflexive and symmetric -/

/-- C10: for every fixed age cutoff, the similarity filter of
`table_lookup_predictor_2` is reflexive (every record matches its own filter)
and symmetric (`y` matches the filter built from `x` iff `x` matches the
filter built from `y`). -/
theorem matchesFilter_refl_symm (cutoff : ℚ) :
    (∀ x, matchesFilter cutoff x x = true) ∧
    (∀ x y, matchesFilter cutoff x y = matchesFilter cutoff y x) := by
  refine ⟨fun x => ?_, fun x y => ?_⟩
  · simp [matchesFilter]
  · simp only [matchesFilter]
    rw [Bool.eq_iff_iff]
    simp only [Bool.and_eq_true, decide_eq_true_eq, beq_iff_eq]
    constructor <;> rintro ⟨⟨⟨⟨h1, h2⟩, h3⟩, h4⟩, h5⟩ <;>
      exact ⟨⟨⟨⟨h1.symm, h2.symm⟩, h3.symm⟩, h4.symm⟩, h5.symm⟩

/-! ## C6: fold-count validation -/

/-- C6: `make_folds n k` fails with `InvalidArgument` whenever `k < 2` or
`k > n`. -/
theorem make_folds_invalid (n k : ℕ) (h : k < 2 ∨ n < k) :
    make_folds n k = .error CVError.InvalidArgument := by
  have hcond : ¬ (2 ≤ k ∧ k ≤ n) := by omega
  simp [make_folds, hcond]

/-- Witness for C6 at `n = 5`, `k = 1`. -/
theorem make_folds_invalid_witness :
    ((1 : ℕ) < 2 ∨ (5 : ℕ) < 1) ∧
      make_folds 5 1 = .error CVError.InvalidArgument :=
  ⟨Or.inl (by decide), make_folds_invalid 5 1 (Or.inl (by decide))⟩

/-! ## C5: insufficient data -/

/-- C5: when the dataset has fewer than `k` records, `evaluate` fails with
`InsufficientData`, returning no partial per-candidate results. -/
theorem evaluate_insufficient (dataset : List Record) (candidates : List ℚ)
    (k : ℕ) (h : dataset.length < k) :
    evaluate dataset candidates k = .error CVError.InsufficientData := by
  simp [evaluate, h]

/-- Witness for C5 at a one-record dataset and `k = 2`. -/
theorem evaluate_insufficient_witness :
    ([sampleA].length < 2) ∧
      evaluate [sampleA] [(30 : ℚ)] 2 = .error CVError.InsufficientData :=
  ⟨by decide, evaluate_insufficient [sampleA] [(30 : ℚ)] 2 (by decide)⟩

/-! ## Properties of `argmaxCount` -/

theorem foldl_betterLabel_spec (L : List ℕ) (t : List ℕ) (b : ℕ) :
    (t.foldl (betterLabel L) b = b ∨ t.foldl (betterLabel L) b ∈ t) ∧
    L.count b ≤ L.count (t.foldl (betterLabel L) b) ∧
    ∀ l ∈ t, L.count l ≤ L.count (t.foldl (betterLabel L) b) := by
  induction t generalizing b with
  | nil => simp
  | cons x t ih =>
    simp only [List.foldl_cons]
    obtain ⟨hmem, hb, hall⟩ := ih (betterLabel L b x)
    have hbx : L.count b ≤ L.count (betterLabel L b x) ∧
        L.count x ≤ L.count (betterLabel L b x) := by
      unfold betterLabel; split <;> omega
    refine ⟨?_, le_trans hbx.1 hb, ?_⟩
    · rcases hmem with h | h
      · rw [h]
        unfold betterLabel
        split
        · exact Or.inr (List.mem_cons_self x t)
        · exact Or.inl rfl
      · exact Or.inr (List.mem_cons_of_mem x h)
    · intro l hl
      rcases List.mem_cons.mp hl with rfl | hl
      · exact le_trans hbx.2 hb
      · exact hall l hl

theorem argmaxCount_spec (ls : List ℕ) (h : ls ≠ []) :
    argmaxCount ls ∈ ls ∧ ∀ l ∈ ls, ls.count l ≤ ls.count (argmaxCount ls) := by
  match ls with
  | [] => exact absurd rfl h
  | x :: t =>
    have hdef : argmaxCount (x :: t) = t.foldl (betterLabel (x :: t)) x := rfl
    rw [hdef]
    obtain ⟨hmem, hb, hall⟩ := foldl_betterLabel_spec (x :: t) t x
    refine ⟨?_, ?_⟩
    · rcases hmem with h | h
      · rw [h]; exact List.mem_cons_self x t
      · exact List.mem_cons_of_mem x h
    · intro l hl
      rcases List.mem_cons.mp hl with rfl | hl
      · exact hb
      · exact hall l hl

/-! ## C9: the predicted label occurs in the table's label column -/

/-- C9: for every query and every non-empty reference table, the label
returned by `table_lookup_predictor_2` occurs in the table's `Survived`
column (it is the most frequent label of the matching subset, or of the
whole table). -/
theorem table_lookup_predictor_2_mem (x : Record) (T : List Record) (h : ℚ)
    (hT : T ≠ []) :
    table_lookup_predictor_2 x T h ∈ T.map Record.survived := by
  unfold table_lookup_predictor_2
  by_cases he : ((T.filter (matchesFilter h x)).map Record.survived).length = 0
  · simp only [he, if_pos rfl]
    have hne : T.map Record.survived ≠ [] := by
      simpa using hT
    exact (argmaxCount_spec _ hne).1
  · simp only [he, if_neg he]
    have hne : (T.filter (matchesFilter h x)).map Record.survived ≠ [] := by
      intro hc
      rw [hc] at he
      exact he rfl
    have hmem := (argmaxCount_spec _ hne).1
    exact List.map_subset Record.survived (List.filter_sublist T).subset hmem

/-- Witness for C9: concrete query and one-row table. -/
theorem table_lookup_predictor_2_mem_witness :
    ([sampleA] ≠ ([] : List Record)) ∧
      table_lookup_predictor_2 sampleQ [sampleA] 30 ∈ [sampleA].map Record.survived :=
  ⟨by simp, table_lookup_predictor_2_mem sampleQ [sampleA] 30 (by simp)⟩

/-! ## C7: empty-match queries fall back to the table's majority label -/

/-- C7: when no row of the non-empty table `T` passes the similarity filter of
query `x`, `table_lookup_predictor_2` returns the default label of `T`, which
is the plain majority label of the unfiltered `T`: a label occurring in `T`
whose multiplicity is maximal among all labels of `T`. -/
theorem table_lookup_predictor_2_default (x : Record) (T : List Record) (h : ℚ)
    (hT : T ≠ []) (hnone : ∀ r ∈ T, matchesFilter h x r = false) :
    table_lookup_predictor_2 x T h = argmaxCount (T.map Record.survived) ∧
    argmaxCount (T.map Record.survived) ∈ T.map Record.survived ∧
    ∀ l ∈ T.map Record.survived,
      (T.map Record.survived).count l ≤
        (T.map Record.survived).count (argmaxCount (T.map Record.survived)) := by
  have hfilter : T.filter (matchesFilter h x) = [] := by
    rw [List.filter_eq_nil_iff]
    intro r hr
    simp [hnone r hr]
  have hne : T.map Record.survived ≠ [] := by simpa using hT
  obtain ⟨hmem, hmax⟩ := argmaxCount_spec (T.map Record.survived) hne
  refine ⟨?_, hmem, hmax⟩
  unfold table_lookup_predictor_2
  simp [hfilter]

/-- Witness for C7: the query matches no row of the two-row table. -/
theorem table_lookup_predictor_2_default_witness :
    (([sampleA, sampleB] : List Record) ≠ [] ∧
        ∀ r ∈ [sampleA, sampleB], matchesFilter 30 sampleQ r = false) ∧
      table_lookup_predictor_2 sampleQ [sampleA, sampleB] 30 =
        argmaxCount ([sampleA, sampleB].map Record.survived) :=
  ⟨⟨by simp, by decide⟩,
    (table_lookup_predictor_2_default sampleQ [sampleA, sampleB] 30
      (by simp) (by decide)).1⟩

/-! ## C3: the folds partition the index range -/

theorem flatten_folds (n k : ℕ) (hk : 0 < k) :
    ((List.range k).map (testIndices n k)).flatten = List.range n := by
  have key : ∀ m, ((List.range m).map (testIndices n k)).flatten =
      List.range' 0 (foldStart n k m) := by
    intro m
    induction m with
    | zero => simp [foldStart]
    | succ m ih =>
      rw [List.range_succ, List.map_append, List.flatten_append, ih]
      have h2 : foldStart n k (m + 1) = foldSize n k m + foldStart n k m := by
        rw [← foldStart_add_size]; omega
      rw [h2, ← List.range'_append_1]
      simp [testIndices]
  rw [key k, foldStart_last n k hk, List.range_eq_range']

/-- C3: for `2 ≤ k ≤ n`, `make_folds n k` succeeds with exactly `k` index
groups that are pairwise disjoint, duplicate-free, together enumerate
`0..n-1`, and whose sizes differ by at most one. -/
theorem make_folds_partition (n k : ℕ) (h2 : 2 ≤ k) (hkn : k ≤ n) :
    ∃ folds, make_folds n k = .ok folds ∧ folds.length = k ∧
      folds.flatten = List.range n ∧
      (∀ g ∈ folds, g.Nodup) ∧
      List.Pairwise List.Disjoint folds ∧
      ∀ i j (hi : i < folds.length) (hj : j < folds.length),
        (folds.get ⟨i, hi⟩).length ≤ (folds.get ⟨j, hj⟩).length + 1 := by
  have hk : 0 < k := by omega
  refine ⟨(List.range k).map (testIndices n k), ?_, by simp, ?_, ?_, ?_, ?_⟩
  · unfold make_folds
    rw [if_pos ⟨h2, hkn⟩]
  · exact flatten_folds n k hk
  · have hnd : (((List.range k).map (testIndices n k)).flatten).Nodup := by
      rw [flatten_folds n k hk]; exact List.nodup_range n
    exact (List.nodup_flatten.mp hnd).1
  · have hnd : (((List.range k).map (testIndices n k)).flatten).Nodup := by
      rw [flatten_folds n k hk]; exact List.nodup_range n
    exact (List.nodup_flatten.mp hnd).2
  · intro i j hi hj
    simp only [List.get_eq_getElem, List.getElem_map, List.getElem_range,
      testIndices, List.length_range'] at *
    unfold foldSize
    split <;> split <;> omega

/-- Witness for C3 at `n = 5`, `k = 2`. -/
theorem make_folds_partition_witness :
    ((2 : ℕ) ≤ 2 ∧ (2 : ℕ) ≤ 5) ∧
      ∃ folds, make_folds 5 2 = .ok folds ∧ folds.length = 2 ∧
        folds.flatten = List.range 5 ∧
        (∀ g ∈ folds, g.Nodup) ∧
        List.Pairwise List.Disjoint folds ∧
        ∀ i j (hi : i < folds.length) (hj : j < folds.length),
          (folds.get ⟨i, hi⟩).length ≤ (folds.get ⟨j, hj⟩).length + 1 :=
  ⟨⟨by decide, by decide⟩, make_folds_partition 5 2 (by decide) (by decide)⟩

/-! ## C8: determinism of the evaluation -/

theorem filterMap_getElem_range (n : ℕ) (l : List ℕ) (h : ∀ j ∈ l, j < n) :
    l.filterMap (fun j => (List.range n)[j]?) = l := by
  induction l with
  | nil => simp
  | cons a t ih =>
    have ha : a < n := h a (List.mem_cons_self a t)
    rw [List.filterMap_cons, List.getElem?_range ha,
      ih (fun j hj => h j (List.mem_cons_of_mem a hj))]

theorem kfold_test_indices_no_shuffle (perm : List ℕ) (n k i : ℕ)
    (hk : 0 < k) (hi : i < k) :
    kfold_test_indices false perm n k i = testIndices n k i := by
  unfold kfold_test_indices testIndices
  simp only [Bool.false_eq_true, if_false]
  exact filterMap_getElem_range n _
    (fun j hj => mem_testIndices_lt n k i j hk hi hj)

/-- C8: the evaluation is deterministic: with shuffling disabled (the
notebook's `KFold(n_splits=10)` construction) the fold splitter's random
permutation stream has no influence on the output, so any two invocations of
`evaluate` — with any two permutation streams — produce the identical
candidate-to-scores table. -/
theorem evaluate_deterministic (perm₁ perm₂ : List ℕ) (dataset : List Record)
    (candidates : List ℚ) (k : ℕ) :
    evaluateR false perm₁ dataset candidates k = evaluate dataset candidates k ∧
    evaluateR false perm₁ dataset candidates k =
      evaluateR false perm₂ dataset candidates k := by
  have key : ∀ perm, evaluateR false perm dataset candidates k =
      evaluate dataset candidates k := by
    intro perm
    unfold evaluateR evaluate make_folds
    by_cases h1 : dataset.length < k
    · simp [h1]
    · simp only [if_neg h1]
      by_cases h2 : 2 ≤ k ∧ k ≤ dataset.length
      · simp only [if_pos h2]
        congr 1
        apply List.map_congr_left
        intro age _
        simp only [Prod.mk.injEq, true_and, List.map_map]
        apply List.map_congr_left
        intro i hi
        rw [kfold_test_indices_no_shuffle perm dataset.length k i
          (by omega) (List.mem_range.mp hi)]
        rfl
      · simp only [if_neg h2]
  exact ⟨key perm₁, (key perm₁).trans (key perm₂).symm⟩

/-! ## C4: iteration order does not affect the result -/

/-- C4: the candidate-to-fold-scores mapping is independent of the iteration
order of the double loop: the fold-outer/candidate-inner order
(`evaluateFoldOuter`, spec §4.3) and the candidate-outer/fold-inner order of
the notebook (`evaluate`) return the same table on every input. -/
theorem evaluate_order_invariant (dataset : List Record) (candidates : List ℚ)
    (k : ℕ) :
    evaluateFoldOuter dataset candidates k = evaluate dataset candidates k := by
  unfold evaluateFoldOuter evaluate
  by_cases h1 : dataset.length < k
  · simp [h1]
  · simp only [if_neg h1]
    cases hm : make_folds dataset.length k with
    | error e => rfl
    | ok folds =>
      simp only [Except.ok.injEq]
      apply List.ext_getElem
      · simp
      · intro i h₁ h₂
        have hi : i < candidates.length := by simpa using h₁
        simp only [List.getElem_map, List.getElem_range]
        rw [List.getD_eq_getElem?_getD, List.getElem?_eq_getElem hi]
        simp only [Option.getD_some, Prod.mk.injEq, true_and, List.map_map]
        apply List.map_congr_left
        intro t _
        simp only [Function.comp_apply]
        rw [List.getD_eq_getElem?_getD, List.getElem?_map,
          List.getElem?_eq_getElem hi]
        rfl

/-! ## C1: the full candidate-by-fold score matrix -/

theorem getD_lt {α : Type} (l : List α) (i : ℕ) (hi : i < l.length) (d : α) :
    l.getD i d = l.get ⟨i, hi⟩ := by
  rw [List.getD_eq_getElem?_getD, List.getElem?_eq_getElem hi]
  rfl

theorem getD_map_lt {α β : Type} (f : α → β) (l : List α) (i : ℕ)
    (hi : i < l.length) (d : β) :
    (l.map f).getD i d = f (l.get ⟨i, hi⟩) := by
  rw [List.getD_eq_getElem?_getD, List.getElem?_map, List.getElem?_eq_getElem hi]
  rfl

theorem selectRows_length (dataset : List Record) (idxs : List ℕ)
    (h : ∀ j ∈ idxs, j < dataset.length) :
    (selectRows dataset idxs).length = idxs.length := by
  unfold selectRows
  induction idxs with
  | nil => rfl
  | cons a t ih =>
    have ha : a < dataset.length := h a (List.mem_cons_self a t)
    rw [List.filterMap_cons, List.getElem?_eq_getElem ha]
    simp only [List.length_cons]
    rw [ih (fun j hj => h j (List.mem_cons_of_mem a hj))]

theorem testRows_length (dataset : List Record) (k f : ℕ) (hk : 0 < k)
    (hf : f < k) :
    (selectRows dataset (testIndices dataset.length k f)).length =
      foldSize dataset.length k f := by
  rw [selectRows_length dataset _
    (fun j hj => mem_testIndices_lt dataset.length k f j hk hf hj)]
  simp [testIndices]

/-- C1: for `2 ≤ k ≤ |dataset|`, `evaluate` succeeds and returns the full
candidate-by-fold matrix: one row per candidate in order, each row carrying
exactly `k` scores, where the score of fold `f` is the number of held-out
records whose `table_lookup_predictor_2` prediction (with the out-of-fold
records as reference table and the candidate as cutoff) equals their true
label, divided by the number of held-out records; every score lies in
`[0, 1]`. -/
theorem evaluate_score_matrix (dataset : List Record) (candidates : List ℚ)
    (k : ℕ) (h2 : 2 ≤ k) (hkn : k ≤ dataset.length) :
    ∃ res, evaluate dataset candidates k = .ok res ∧
      res.length = candidates.length ∧
      ∀ ci, ci < candidates.length →
        (res.getD ci (0, [])).1 = candidates.getD ci 0 ∧
        (res.getD ci (0, [])).2.length = k ∧
        ∀ f, f < k →
          0 < (selectRows dataset (testIndices dataset.length k f)).length ∧
          (res.getD ci (0, [])).2.getD f 0 =
            (((selectRows dataset (testIndices dataset.length k f)).countP
                (fun r => decide (table_lookup_predictor_2 r
                  (selectRows dataset (trainIndices dataset.length k f))
                  (candidates.getD ci 0) = r.survived)) : ℕ) : ℚ)
              / ((selectRows dataset (testIndices dataset.length k f)).length : ℚ) ∧
          0 ≤ (res.getD ci (0, [])).2.getD f 0 ∧
          (res.getD ci (0, [])).2.getD f 0 ≤ 1 := by
  have hk : 0 < k := by omega
  have hlen : ¬ dataset.length < k := by omega
  refine ⟨candidates.map (fun age =>
    (age, ((List.range k).map (testIndices dataset.length k)).map
      (fun t => scoreOn dataset t age))), ?_, by simp, ?_⟩
  · unfold evaluate make_folds
    rw [if_neg hlen, if_pos ⟨h2, hkn⟩]
  · intro ci hci
    rw [getD_map_lt _ _ _ hci, getD_lt _ _ hci]
    refine ⟨rfl, by simp, ?_⟩
    intro f hf
    have hflen : f < (((List.range k).map (testIndices dataset.length k))).length := by
      simpa using hf
    have htestpos : 0 < (selectRows dataset (testIndices dataset.length k f)).length := by
      rw [testRows_length dataset k f hk hf]
      have hdiv : 0 < dataset.length / k := Nat.div_pos hkn hk
      unfold foldSize
      split <;> omega
    have hval : (((List.range k).map (testIndices dataset.length k)).map
        (fun t => scoreOn dataset t (candidates.get ⟨ci, hci⟩))).getD f 0 =
        scoreOn dataset (testIndices dataset.length k f) (candidates.get ⟨ci, hci⟩) := by
      rw [getD_map_lt _ _ _ hflen]
      congr 1
      simp
    refine ⟨htestpos, ?_, ?_, ?_⟩
    · rw [hval]
      unfold scoreOn accuracy_score trainIndices
      rfl
    · rw [hval]
      unfold scoreOn accuracy_score
      positivity
    · rw [hval]
      show accuracy_score _ _ _ ≤ 1
      unfold accuracy_score
      rw [div_le_one (by exact_mod_cast htestpos)]
      exact_mod_cast List.countP_le_length _

/-- Witness for C1 on a concrete four-record dataset with two folds and one
candidate cutoff. -/
theorem evaluate_score_matrix_witness :
    ((2 : ℕ) ≤ 2 ∧ 2 ≤ sampleDataset.length) ∧
      ∃ res, evaluate sampleDataset [(30 : ℚ)] 2 = .ok res ∧
        res.length = [(30 : ℚ)].length ∧
        ∀ ci, ci < [(30 : ℚ)].length →
          (res.getD ci (0, [])).1 = [(30 : ℚ)].getD ci 0 ∧
          (res.getD ci (0, [])).2.length = 2 ∧
          ∀ f, f < 2 →
            0 < (selectRows sampleDataset
                  (testIndices sampleDataset.length 2 f)).length ∧
            (res.getD ci (0, [])).2.getD f 0 =
              (((selectRows sampleDataset
                    (testIndices sampleDataset.length 2 f)).countP
                  (fun r => decide (table_lookup_predictor_2 r
                    (selectRows sampleDataset
                      (trainIndices sampleDataset.length 2 f))
                    ([(30 : ℚ)].getD ci 0) = r.survived)) : ℕ) : ℚ)
                / ((selectRows sampleDataset
                    (testIndices sampleDataset.length 2 f)).length : ℚ) ∧
            0 ≤ (res.getD ci (0, [])).2.getD f 0 ∧
            (res.getD ci (0, [])).2.getD f 0 ≤ 1 :=
  ⟨⟨le_refl 2, by decide⟩,
    evaluate_score_matrix sampleDataset [(30 : ℚ)] 2 (le_refl 2) (by decide)⟩
